import Mathlib

/-!
Verification of the license-key rotation, health-tracking and retry/backoff
subsystem of the byapi unified client.

Python strings are modelled as lists of characters; machine time is modelled
as an abstract natural-number timestamp; the random jitter draw is modelled as
an arbitrary rational in the drawn interval.  Mutable objects are modelled by
explicit state passing: each method returns the updated record or manager.
-/

/-- Model of a Python string: a list of characters. -/
abbrev Str := List Char

/-- The three health states of a license key (byapi_config.py line 33). -/
inductive Status where
  | healthy
  | faulty
  | invalid
deriving DecidableEq, Repr

/-- The string form of a status, as returned by mark_key_failure. -/
def statusStr : Status → String
  | .healthy => "healthy"
  | .faulty => "faulty"
  | .invalid => "invalid"

/-- Health record of a single license key (dataclass LicenseKeyHealth,
byapi_config.py lines 26-35).  The datetime timestamp is abstracted to a
natural number. -/
structure LicenseKeyHealth where
  key : Str
  consecutive_failures : Nat := 0
  total_failures : Nat := 0
  status : Status := .healthy
  last_failed_timestamp : Option Nat := none
  last_failed_reason : Option String := none
deriving DecidableEq, Repr

/-- A freshly constructed health record, all fields at their defaults. -/
def LicenseKeyHealth.fresh (k : Str) : LicenseKeyHealth := { key := k }

/-- LicenseKeyHealth.mark_failure (byapi_config.py lines 37-65): increment
both counters, stamp timestamp and reason, then recompute the status with the
hardcoded thresholds 10 (total, to invalid) and 5 (consecutive, to faulty);
otherwise the status is left unchanged.  The Python method mutates self and
returns the new status; here the updated record is returned and the status is
read from its field. -/
def LicenseKeyHealth.mark_failure (h : LicenseKeyHealth) (reason : String)
    (now : Nat) : LicenseKeyHealth :=
  let c := h.consecutive_failures + 1
  let tot := h.total_failures + 1
  { h with
    consecutive_failures := c
    total_failures := tot
    last_failed_timestamp := some now
    last_failed_reason := some reason
    status :=
      if 10 ≤ tot then .invalid
      else if 5 ≤ c then .faulty
      else h.status }

/-- LicenseKeyHealth.mark_success (byapi_config.py lines 67-79): a no-op on an
invalid key; otherwise reset the consecutive counter and set status healthy. -/
def LicenseKeyHealth.mark_success (h : LicenseKeyHealth) : LicenseKeyHealth :=
  if h.status = .invalid then h
  else { h with consecutive_failures := 0, status := .healthy }

/-- LicenseKeyHealth.is_usable (byapi_config.py lines 81-84). -/
def LicenseKeyHealth.is_usable (h : LicenseKeyHealth) : Bool :=
  decide (h.status = .healthy) || decide (h.status = .faulty)

/-- LicenseKeyHealth.is_permanently_disabled (byapi_config.py lines 86-89). -/
def LicenseKeyHealth.is_permanently_disabled (h : LicenseKeyHealth) : Bool :=
  decide (h.status = .invalid)

/-- Masking of a raw key string (byapi_config.py lines 91-95): keys longer
than 8 characters become their first 8 characters followed by three dots,
shorter keys become the fixed placeholder of three asterisks. -/
def maskStr (k : Str) : Str :=
  if 8 < k.length then k.take 8 ++ ['.', '.', '.'] else ['*', '*', '*']

/-- The mask_key method of a health record applies maskStr to its key. -/
def LicenseKeyHealth.mask_key (h : LicenseKeyHealth) : Str := maskStr h.key

/-- An event on a single health record: one recorded failure (with its reason
and timestamp) or one recorded success. -/
inductive KeyEvent where
  | fail (reason : String) (now : Nat)
  | success
deriving DecidableEq, Repr

/-- Apply one event to a health record. -/
def applyEvent (h : LicenseKeyHealth) : KeyEvent → LicenseKeyHealth
  | .fail r t => h.mark_failure r t
  | .success => h.mark_success

/-- Apply a sequence of events to a health record, oldest first. -/
def applyEvents (h : LicenseKeyHealth) (es : List KeyEvent) : LicenseKeyHealth :=
  es.foldl applyEvent h

/-- Number of failure events in a sequence. -/
def failCount (es : List KeyEvent) : Nat :=
  (es.filter fun e => match e with | .fail _ _ => true | .success => false).length

/-- Model of Python str.strip: drop whitespace from both ends. -/
def pstrip (s : Str) : Str :=
  ((s.dropWhile Char.isWhitespace).reverse.dropWhile Char.isWhitespace).reverse

/-- The credential cleaning done by the manager constructor: strip every
entry, then discard entries that are empty after stripping. -/
def cleanKeys (l : List Str) : List Str :=
  (l.map pstrip).filter fun k => decide (k ≠ [])

/-- Keep the first occurrence of each key string, in order: the semantics of
the Python dict comprehension in the constructor on duplicate keys. -/
def dedupFirst (l : List Str) : List Str :=
  l.foldl (fun acc k => if k ∈ acc then acc else acc ++ [k]) []

/-- State of KeyRotationManager (byapi_config.py lines 98-126): the ordered
pool of health records (the dict together with its insertion-ordered key
list) and the shared round-robin cursor. -/
structure KeyRotationManager where
  keys : List LicenseKeyHealth
  current_index : Nat := 0
deriving DecidableEq, Repr

/-- KeyRotationManager.__init__ (byapi_config.py lines 109-126): strip the
configured credentials, drop empty ones, collapse duplicates to one record,
and start the cursor at 0. -/
def KeyRotationManager.init (license_keys : List Str) : KeyRotationManager :=
  { keys := (dedupFirst (cleanKeys license_keys)).map LicenseKeyHealth.fresh
    current_index := 0 }

/-- The constructor as a fallible operation: the Python constructor contains
no raise statement, so construction always succeeds, even on an empty pool. -/
def KeyRotationManager.initE (license_keys : List Str) :
    Except String KeyRotationManager :=
  .ok (KeyRotationManager.init license_keys)

/-- The candidate tier of a given status, in pool order (the three filter
comprehensions of get_next_key). -/
def KeyRotationManager.tierOf (m : KeyRotationManager) (s : Status) :
    List LicenseKeyHealth :=
  m.keys.filter fun h => decide (h.status = s)

/-- Cursor advance shared by all three branches of get_next_key: increment
modulo the size of the FULL pool, not of the selected tier. -/
def KeyRotationManager.advance (m : KeyRotationManager) : KeyRotationManager :=
  { m with current_index := (m.current_index + 1) % m.keys.length }

/-- KeyRotationManager.get_next_key (byapi_config.py lines 128-173): error on
an empty pool; otherwise pick from the healthy tier, else the faulty tier,
else the invalid tier, indexing the tier by the cursor modulo the size of the
tier, and advancing the cursor modulo the size of the full pool. -/
def KeyRotationManager.get_next_key (m : KeyRotationManager) :
    Except String (Str × KeyRotationManager) :=
  if m.keys.isEmpty then .error "No license keys configured"
  else
    match (m.tierOf .healthy).get? (m.current_index % (m.tierOf .healthy).length) with
    | some r => .ok (r.key, m.advance)
    | none =>
      match (m.tierOf .faulty).get? (m.current_index % (m.tierOf .faulty).length) with
      | some r => .ok (r.key, m.advance)
      | none =>
        match (m.tierOf .invalid).get? (m.current_index % (m.tierOf .invalid).length) with
        | some r => .ok (r.key, m.advance)
        | none => .error "No license keys available"

/-- KeyRotationManager.mark_key_failure (byapi_config.py lines 175-197):
unknown keys give back the literal string unknown and leave the state
untouched; a known key gets its record updated, and when the new status is
faulty the cursor is advanced one step modulo the pool size. -/
def KeyRotationManager.mark_key_failure (m : KeyRotationManager) (k : Str)
    (reason : String) (now : Nat) : String × KeyRotationManager :=
  match m.keys.find? (fun h => decide (h.key = k)) with
  | none => ("unknown", m)
  | some h0 =>
    let h' := h0.mark_failure reason now
    let keys' := m.keys.map fun h => if h.key = k then h.mark_failure reason now else h
    if h'.status = .faulty then
      (statusStr h'.status,
        { keys := keys', current_index := (m.current_index + 1) % keys'.length })
    else
      (statusStr h'.status, { keys := keys', current_index := m.current_index })

/-- KeyRotationManager.mark_key_success (byapi_config.py lines 199-209):
silent no-op on unknown keys, otherwise forward to the record. -/
def KeyRotationManager.mark_key_success (m : KeyRotationManager) (k : Str) :
    KeyRotationManager :=
  match m.keys.find? (fun h => decide (h.key = k)) with
  | none => m
  | some _ =>
    { m with keys := m.keys.map fun h => if h.key = k then h.mark_success else h }

/-- KeyRotationManager.get_health_status (byapi_config.py lines 211-239):
when masking is requested, return copies of the records with the key field
replaced by its masked form; all counters and stamps are copied unchanged. -/
def KeyRotationManager.get_health_status (m : KeyRotationManager)
    (mask_keys : Bool) : List LicenseKeyHealth :=
  if mask_keys then m.keys.map (fun h => { h with key := h.mask_key }) else m.keys

/-- Perform n consecutive get_next_key calls and collect the returned keys;
stop early if a call errors. -/
def runKeys : Nat → KeyRotationManager → List Str
  | 0, _ => []
  | n + 1, m =>
    match m.get_next_key with
    | .ok (k, m') => k :: runKeys n m'
    | .error _ => []

/-- The manager state after one get_next_key call (unchanged on error). -/
def nextState (m : KeyRotationManager) : KeyRotationManager :=
  match m.get_next_key with
  | .ok (_, m') => m'
  | .error _ => m

/-- The cyclic read of n elements of a list starting at index i. -/
def cycleTake (n : Nat) (l : List Str) (i : Nat) : List Str :=
  (List.range n).map fun j => l.getD ((i + j) % l.length) []

/-- The license-key parsing of ByapiConfig.__init__ (byapi_config.py line
259): split the configured string on commas, strip each piece, keep the
non-empty pieces. -/
def parseLicenseKeys (s : Str) : List Str :=
  ((s.splitOn ',').map pstrip).filter fun k => decide (k ≠ [])

/-- The license-key validation of ByapiConfig.__init__ (byapi_config.py lines
252-261): an unset (empty) BYAPI_LICENCE string is a construction-time error,
and so is a string from which no valid key parses. -/
def byapiConfigLicenseKeys (s : Str) : Except String (List Str) :=
  if s = [] then .error "BYAPI_LICENCE environment variable not set"
  else
    let ks := parseLicenseKeys s
    if ks = [] then .error "No valid license keys found in BYAPI_LICENCE"
    else .ok ks

/-- The consecutive-failure threshold knob of ByapiConfig.__init__
(byapi_config.py lines 285-287): the BYAPI_CONSECUTIVE_FAILURES environment
variable (abstracted here as its parsed integer value), defaulting to 5. -/
def consecutiveFailureThreshold (env : Option Nat) : Nat :=
  env.getD 5

/-- The total-failure threshold knob of ByapiConfig.__init__ (byapi_config.py
lines 288-290): the BYAPI_TOTAL_FAILURES environment variable (abstracted
here as its parsed integer value), defaulting to 10. -/
def totalFailureThreshold (env : Option Nat) : Nat :=
  env.getD 10

/-- The pre-jitter delay of BaseApiHandler._wait_exponential
(byapi_client_unified.py lines 234-236): base times 2 to the power of the
1-indexed attempt number minus one, then capped by the configured maximum. -/
def wait_delay (base maxd : ℚ) (attempt : Nat) : ℚ :=
  min (base * 2 ^ (attempt - 1)) maxd

/-- The slept time of _wait_exponential (byapi_client_unified.py lines
238-240) with the uniform draw from the interval from minus 0.2 to 0.2
modelled by the parameter j: delay plus delay times j. -/
def wait_actual (base maxd : ℚ) (attempt : Nat) (j : ℚ) : ℚ :=
  wait_delay base maxd attempt + wait_delay base maxd attempt * j

/-- Modelled from the words of the spec, for comparison with wait_delay: the
backoff formula min of retryMaxDelay and retryBaseDelay times 2 to the
attempt minus 1. -/
def backoffSpec (base maxd : ℚ) (attempt : Nat) : ℚ :=
  min maxd (base * 2 ^ (attempt - 1))

/-- The observable result of one HTTP attempt: a response with a status code
and a flag telling whether its body parses as JSON, or a network-level
exception (timeout or connection error). -/
inductive HttpOutcome where
  | http (status : Nat) (parseOk : Bool)
  | netError (msg : String)

/-- The classification of the last retryable error, kept by _make_request in
the last_error variable to pick the exhaustion exception. -/
inductive LastError where
  | rateLimited
  | netIssue
deriving DecidableEq, Repr

/-- The result of one logical _make_request call, by the exception (or
success) it ends in. -/
inductive ReqOutcome where
  | success
  | authError
  | dataError
  | rateLimitError
  | networkError
  | byapiError
deriving DecidableEq, Repr

/-- The branch taken on an HTTP response by the if-elif chain of
_make_request (byapi_client_unified.py lines 125-162), in source order: 429
first, then 401 or 403, then every status of at least 400, then every status
of at least 500, then the success path. -/
inductive HttpClass where
  | rateLimit
  | auth
  | clientError
  | serverRetry
  | ok2xx
deriving DecidableEq, Repr

/-- The status-code dispatch of _make_request, with the branches in the exact
order of the source: because the branch for statuses of at least 400 precedes
the branch for statuses of at least 500, the latter can never be reached. -/
def classifyStatus (st : Nat) : HttpClass :=
  if st = 429 then .rateLimit
  else if st = 401 ∨ st = 403 then .auth
  else if 400 ≤ st then .clientError
  else if 500 ≤ st then .serverRetry
  else .ok2xx

/-- The retry loop of BaseApiHandler._make_request (byapi_client_unified.py
lines 111-225), as a state transformer on the key manager.  The fuel argument
is the number of attempts still allowed (max_retries minus attempt); outcomes
gives the result of the HTTP attempt made in iteration number attempt.  Rate
limited attempts and attempts in the (unreachable) server-retry branch record
nothing and retry; auth and client errors mark one key failure and end the
call; network exceptions mark one key failure per attempt and retry; a
parseable success marks one key success. -/
def requestLoop (outcomes : Nat → HttpOutcome) (key : Str) :
    Nat → Nat → KeyRotationManager → Option LastError →
    ReqOutcome × KeyRotationManager
  | 0, _, m, last =>
    match last with
    | some .rateLimited => (.rateLimitError, m)
    | some .netIssue => (.networkError, m)
    | none => (.byapiError, m)
  | fuel + 1, attempt, m, last =>
    match outcomes attempt with
    | .netError msg =>
      requestLoop outcomes key fuel (attempt + 1)
        (m.mark_key_failure key ("Network error: " ++ msg) attempt).2
        (some .netIssue)
    | .http st ok =>
      match classifyStatus st with
      | .rateLimit => requestLoop outcomes key fuel (attempt + 1) m (some .rateLimited)
      | .auth => (.authError, (m.mark_key_failure key "Authentication failed" attempt).2)
      | .clientError => (.dataError, (m.mark_key_failure key "Client error" attempt).2)
      | .serverRetry => requestLoop outcomes key fuel (attempt + 1) m (some .netIssue)
      | .ok2xx =>
        if ok then (.success, m.mark_key_success key)
        else (.dataError, m)

/-- One logical call of _make_request with the given retry budget, acting on
the key obtained before the loop. -/
def makeRequest (maxRetries : Nat) (m : KeyRotationManager) (key : Str)
    (outcomes : Nat → HttpOutcome) : ReqOutcome × KeyRotationManager :=
  requestLoop outcomes key maxRetries 0 m none

/-- The total-failure counter of the record of a given key, if present. -/
def totalFailuresOf (m : KeyRotationManager) (k : Str) : Option Nat :=
  (m.keys.find? (fun h => decide (h.key = k))).map (·.total_failures)

/-- Apply n mark_key_failure events for one key to the manager. -/
def applyFailN (m : KeyRotationManager) (k : Str) : Nat → KeyRotationManager
  | 0 => m
  | n + 1 => applyFailN (m.mark_key_failure k "e" 0).2 k n

/-- Test fixture: a ten-character key. -/
def cKey : Str := ['k', '1', '2', '3', '4', '5', '6', '7', '8', '9']

/-- Test fixture: a single-key pool with a fresh record. -/
def mgrC1 : KeyRotationManager := { keys := [LicenseKeyHealth.fresh cKey], current_index := 0 }

/-- Test fixture: a faulty record after five recorded failures. -/
def hCfaulty : LicenseKeyHealth :=
  { key := ['c'], consecutive_failures := 5, total_failures := 5, status := .faulty,
    last_failed_timestamp := some 0, last_failed_reason := some "e" }

/-- Test fixture: two healthy keys and one faulty key, cursor at 2.  This
state is reached from a fresh three-key pool by five failures on the third
key followed by one get_next_key call. -/
def mgrTwoHealthy : KeyRotationManager :=
  { keys := [LicenseKeyHealth.fresh ['a'], LicenseKeyHealth.fresh ['b'], hCfaulty],
    current_index := 2 }

/-- Test fixture: one healthy, one faulty and one invalid record. -/
def mgrMixed : KeyRotationManager :=
  { keys := [LicenseKeyHealth.fresh ['a'],
             { key := ['b'], consecutive_failures := 5, total_failures := 5,
               status := .faulty, last_failed_timestamp := some 0,
               last_failed_reason := some "e" },
             { key := ['c'], consecutive_failures := 10, total_failures := 10,
               status := .invalid, last_failed_timestamp := some 0,
               last_failed_reason := some "e" }],
    current_index := 0 }

/-- Helper: a failure event increments the total counter by one. -/
theorem mark_failure_total (h : LicenseKeyHealth) (r : String) (t : Nat) :
    (h.mark_failure r t).total_failures = h.total_failures + 1 := by
  simp [LicenseKeyHealth.mark_failure]

/-- Helper: a success event leaves the total counter unchanged. -/
theorem mark_success_total (h : LicenseKeyHealth) :
    h.mark_success.total_failures = h.total_failures := by
  unfold LicenseKeyHealth.mark_success
  split <;> simp

/-- Helper: a failure event at the head of a sequence adds one to failCount. -/
theorem failCount_cons_fail (r : String) (t : Nat) (es : List KeyEvent) :
    failCount (.fail r t :: es) = failCount es + 1 := by
  simp [failCount, List.filter]

/-- Helper: a success event at the head of a sequence leaves failCount. -/
theorem failCount_cons_success (es : List KeyEvent) :
    failCount (.success :: es) = failCount es := by
  simp [failCount, List.filter]

/-- Helper: the total counter after a sequence of events counts exactly the
failure events of the sequence on top of the starting value. -/
theorem applyEvents_total_eq (es : List KeyEvent) (h : LicenseKeyHealth) :
    (applyEvents h es).total_failures = h.total_failures + failCount es := by
  induction es generalizing h with
  | nil => simp [applyEvents, failCount]
  | cons e es ih =>
    cases e with
    | fail r t =>
      have h1 : applyEvents h (KeyEvent.fail r t :: es) =
          applyEvents (h.mark_failure r t) es := rfl
      rw [h1, ih, mark_failure_total, failCount_cons_fail]
      omega
    | success =>
      have h1 : applyEvents h (KeyEvent.success :: es) =
          applyEvents h.mark_success es := rfl
      rw [h1, ih, mark_success_total, failCount_cons_success]

/-- Helper: the invariant that an invalid status certifies at least ten total
failures is preserved by every event. -/
theorem applyEvents_invalid_total (es : List KeyEvent) (h : LicenseKeyHealth)
    (hP : h.status = .invalid → 10 ≤ h.total_failures) :
    (applyEvents h es).status = .invalid → 10 ≤ (applyEvents h es).total_failures := by
  induction es generalizing h with
  | nil => simpa [applyEvents] using hP
  | cons e es ih =>
    cases e with
    | fail r t =>
      refine ih (h.mark_failure r t) ?_
      intro hs
      rw [mark_failure_total]
      simp only [LicenseKeyHealth.mark_failure] at hs
      split at hs
      · omega
      · split at hs
        · exact absurd hs (by simp)
        · exact Nat.le_succ_of_le (hP hs)
    | success =>
      refine ih h.mark_success ?_
      intro hs
      rw [mark_success_total]
      unfold LicenseKeyHealth.mark_success at hs
      split at hs
      · next hinv => exact hP hinv
      · exact absurd hs (by simp)

/-- Claim C2: every recordFailure event increments both counters by exactly
one and stamps timestamp and reason; the resulting status is invalid when the
new total reaches 10, else faulty when the new consecutive count reaches 5,
else unchanged.  A fresh key reaches faulty after exactly 5 consecutive
failures (healthy after 4), and reaches invalid exactly at the 10th total
failure even when successes reset the consecutive count in between (any event
sequence with nine failures is not yet invalid, and one further failure makes
it invalid). -/
theorem C2_record_failure_spec (h : LicenseKeyHealth) (r : String) (t : Nat)
    (k : Str) (es9 esS : List KeyEvent)
    (h9 : failCount es9 = 9) (hS : failCount esS ≤ 9) :
    (h.mark_failure r t).consecutive_failures = h.consecutive_failures + 1 ∧
    (h.mark_failure r t).total_failures = h.total_failures + 1 ∧
    (h.mark_failure r t).last_failed_timestamp = some t ∧
    (h.mark_failure r t).last_failed_reason = some r ∧
    (h.mark_failure r t).status =
      (if 10 ≤ h.total_failures + 1 then Status.invalid
       else if 5 ≤ h.consecutive_failures + 1 then Status.faulty
       else h.status) ∧
    (applyEvents (LicenseKeyHealth.fresh k)
      (List.replicate 5 (KeyEvent.fail r t))).status = Status.faulty ∧
    (applyEvents (LicenseKeyHealth.fresh k)
      (List.replicate 4 (KeyEvent.fail r t))).status = Status.healthy ∧
    ((applyEvents (LicenseKeyHealth.fresh k) es9).mark_failure r t).status = Status.invalid ∧
    (applyEvents (LicenseKeyHealth.fresh k) esS).status ≠ Status.invalid := by
  have htot9 : (applyEvents (LicenseKeyHealth.fresh k) es9).total_failures = 9 := by
    rw [applyEvents_total_eq, h9]; rfl
  refine ⟨by simp [LicenseKeyHealth.mark_failure],
          by simp [LicenseKeyHealth.mark_failure],
          by simp [LicenseKeyHealth.mark_failure],
          by simp [LicenseKeyHealth.mark_failure],
          by simp [LicenseKeyHealth.mark_failure], ?_, ?_, ?_, ?_⟩
  · simp [List.replicate, applyEvents, applyEvent, LicenseKeyHealth.mark_failure,
      LicenseKeyHealth.fresh]
  · simp [List.replicate, applyEvents, applyEvent, LicenseKeyHealth.mark_failure,
      LicenseKeyHealth.fresh]
  · simp [LicenseKeyHealth.mark_failure, htot9]
  · intro hinv
    have h10 := applyEvents_invalid_total esS (LicenseKeyHealth.fresh k)
      (by simp [LicenseKeyHealth.fresh]) hinv
    rw [applyEvents_total_eq] at h10
    simp [LicenseKeyHealth.fresh] at h10
    omega

/-- Witness for C2 at concrete inputs: nine failures with two interleaved
successes, then a tenth failure, make the key invalid. -/
theorem C2_record_failure_spec_witness :
    ((applyEvents (LicenseKeyHealth.fresh ['k'])
        (List.replicate 4 (KeyEvent.fail "e" 0) ++ KeyEvent.success ::
          (List.replicate 4 (KeyEvent.fail "e" 0) ++ KeyEvent.success ::
            [KeyEvent.fail "e" 0]))).mark_failure "e" 0).status = Status.invalid :=
  (C2_record_failure_spec (LicenseKeyHealth.fresh ['h']) "e" 0 ['k']
    (List.replicate 4 (KeyEvent.fail "e" 0) ++ KeyEvent.success ::
      (List.replicate 4 (KeyEvent.fail "e" 0) ++ KeyEvent.success ::
        [KeyEvent.fail "e" 0]))
    (List.replicate 9 (KeyEvent.fail "e" 0))
    (by decide) (by decide)).2.2.2.2.2.2.2.1

/-- Claim C3: recordSuccess on an invalid key changes nothing (so any number
of successes leaves it invalid); on any other key it zeroes the consecutive
counter, sets status healthy, and touches nothing else. -/
theorem C3_record_success_spec (h : LicenseKeyHealth) (n : Nat) :
    (h.status = Status.invalid → LicenseKeyHealth.mark_success^[n] h = h) ∧
    (h.status = Status.invalid →
      (LicenseKeyHealth.mark_success^[n] h).status = Status.invalid) ∧
    (h.status ≠ Status.invalid →
      h.mark_success.consecutive_failures = 0 ∧
      h.mark_success.status = Status.healthy ∧
      h.mark_success.total_failures = h.total_failures ∧
      h.mark_success.key = h.key ∧
      h.mark_success.last_failed_timestamp = h.last_failed_timestamp ∧
      h.mark_success.last_failed_reason = h.last_failed_reason) := by
  refine ⟨?_, ?_, ?_⟩
  · intro hinv
    exact Function.iterate_fixed (by simp [LicenseKeyHealth.mark_success, hinv]) n
  · intro hinv
    rw [Function.iterate_fixed (by simp [LicenseKeyHealth.mark_success, hinv]) n]
    exact hinv
  · intro hok
    simp [LicenseKeyHealth.mark_success, hok]

/-- Witness for C3 at concrete inputs: five successes leave an invalid record
untouched, and one success on a fresh record keeps it healthy with a zero
consecutive counter. -/
theorem C3_record_success_spec_witness :
    (LicenseKeyHealth.mark_success^[5]
      { key := ['k'], consecutive_failures := 3, total_failures := 12,
        status := Status.invalid, last_failed_timestamp := some 0,
        last_failed_reason := some "e" } =
      { key := ['k'], consecutive_failures := 3, total_failures := 12,
        status := Status.invalid, last_failed_timestamp := some 0,
        last_failed_reason := some "e" }) ∧
    (LicenseKeyHealth.fresh ['a']).mark_success.status = Status.healthy :=
  ⟨(C3_record_success_spec
      { key := ['k'], consecutive_failures := 3, total_failures := 12,
        status := Status.invalid, last_failed_timestamp := some 0,
        last_failed_reason := some "e" } 5).1 rfl,
   ((C3_record_success_spec (LicenseKeyHealth.fresh ['a']) 0).2.2 (by decide)).2.1⟩

/-- Claim C7 (code bug): ByapiConfig reads two distinct threshold knobs with
defaults 5 and 10, and they parse configured values such as 1 and 3; but the
status transitions of mark_failure are hardcoded to 5 and 10, so with a
configured consecutive threshold of 1 a key is still healthy after its first
failure, and with a configured total threshold of 3 it is still healthy after
three total failures. -/
theorem C7_thresholds_not_wired :
    consecutiveFailureThreshold none = 5 ∧
    totalFailureThreshold none = 10 ∧
    consecutiveFailureThreshold (some 1) = 1 ∧
    totalFailureThreshold (some 3) = 3 ∧
    ((LicenseKeyHealth.fresh ['k']).mark_failure "e" 0).consecutive_failures = 1 ∧
    ((LicenseKeyHealth.fresh ['k']).mark_failure "e" 0).status = Status.healthy ∧
    (applyEvents (LicenseKeyHealth.fresh ['k'])
      (List.replicate 3 (KeyEvent.fail "e" 0))).total_failures = 3 ∧
    (applyEvents (LicenseKeyHealth.fresh ['k'])
      (List.replicate 3 (KeyEvent.fail "e" 0))).status = Status.healthy := by
  decide

/-- Claim C10: marking failure on a key string absent from the pool returns
the literal string unknown, which is outside the documented status set, and
leaves the manager (every record and the cursor) unchanged; marking success
on an unknown key is likewise a silent no-op. -/
theorem C10_unknown_key (m : KeyRotationManager) (k : Str) (r : String) (t : Nat)
    (hk : ∀ x ∈ m.keys, x.key ≠ k) :
    m.mark_key_failure k r t = ("unknown", m) ∧
    (∀ s : Status, statusStr s ≠ "unknown") ∧
    m.mark_key_success k = m := by
  have hfind : m.keys.find? (fun h => decide (h.key = k)) = none :=
    List.find?_eq_none.mpr fun x hx => by simpa using hk x hx
  refine ⟨?_, ?_, ?_⟩
  · simp [KeyRotationManager.mark_key_failure, hfind]
  · intro s; cases s <;> decide
  · simp [KeyRotationManager.mark_key_success, hfind]

/-- Witness for C10 at a concrete pool and an absent key. -/
theorem C10_unknown_key_witness :
    mgrMixed.mark_key_failure ['z'] "e" 0 = ("unknown", mgrMixed) ∧
    mgrMixed.mark_key_success ['z'] = mgrMixed :=
  ⟨(C10_unknown_key mgrMixed ['z'] "e" 0 (by decide)).1,
   (C10_unknown_key mgrMixed ['z'] "e" 0 (by decide)).2.2⟩

/-- Helper: when the healthy tier is non-empty, get_next_key returns the key
of some member of the healthy tier and advances the cursor. -/
theorem get_next_key_of_healthy (m : KeyRotationManager)
    (hne : m.tierOf .healthy ≠ []) :
    ∃ r ∈ m.tierOf .healthy, m.get_next_key = .ok (r.key, m.advance) := by
  have hkeys : m.keys ≠ [] := by
    intro h0
    exact hne (by simp [KeyRotationManager.tierOf, h0])
  have hlen : 0 < (m.tierOf .healthy).length := List.length_pos.mpr hne
  have hidx : m.current_index % (m.tierOf .healthy).length <
      (m.tierOf .healthy).length := Nat.mod_lt _ hlen
  obtain ⟨r, hr⟩ : ∃ r, (m.tierOf .healthy).get?
      (m.current_index % (m.tierOf .healthy).length) = some r := by
    rw [List.get?_eq_getElem?]
    exact ⟨_, List.getElem?_eq_getElem hidx⟩
  refine ⟨r, List.get?_mem hr, ?_⟩
  have hE : m.keys.isEmpty = false := by simpa [List.isEmpty_iff] using hkeys
  simp only [KeyRotationManager.get_next_key, hE, Bool.false_eq_true, if_false, hr]

/-- Helper: when the healthy tier is empty and the faulty tier is non-empty,
get_next_key returns the key of some member of the faulty tier. -/
theorem get_next_key_of_faulty (m : KeyRotationManager)
    (hh : m.tierOf .healthy = []) (hne : m.tierOf .faulty ≠ []) :
    ∃ r ∈ m.tierOf .faulty, m.get_next_key = .ok (r.key, m.advance) := by
  have hkeys : m.keys ≠ [] := by
    intro h0
    exact hne (by simp [KeyRotationManager.tierOf, h0])
  have hlen : 0 < (m.tierOf .faulty).length := List.length_pos.mpr hne
  have hidx : m.current_index % (m.tierOf .faulty).length <
      (m.tierOf .faulty).length := Nat.mod_lt _ hlen
  obtain ⟨r, hr⟩ : ∃ r, (m.tierOf .faulty).get?
      (m.current_index % (m.tierOf .faulty).length) = some r := by
    rw [List.get?_eq_getElem?]
    exact ⟨_, List.getElem?_eq_getElem hidx⟩
  refine ⟨r, List.get?_mem hr, ?_⟩
  have hE : m.keys.isEmpty = false := by simpa [List.isEmpty_iff] using hkeys
  have hnone : (m.tierOf .healthy).get?
      (m.current_index % (m.tierOf .healthy).length) = none := by
    simp [hh]
  simp only [KeyRotationManager.get_next_key, hE, Bool.false_eq_true, if_false,
    hnone, hr]

/-- Helper: membership in a tier unpacks to pool membership plus the status. -/
theorem mem_tierOf (m : KeyRotationManager) (s : Status) (r : LicenseKeyHealth) :
    r ∈ m.tierOf s ↔ r ∈ m.keys ∧ r.status = s := by
  simp [KeyRotationManager.tierOf]

/-- Claim C4: whenever some usable (non-invalid) key exists, get_next_key
returns the key of a record that is not invalid; and whenever some healthy
key exists, it returns the key of a healthy record, so a faulty or invalid
key is never returned while a healthy one exists, and an invalid key is
never returned while a healthy or faulty one exists. -/
theorem C4_tier_preference (m : KeyRotationManager)
    (husable : ∃ x ∈ m.keys, x.status ≠ Status.invalid) :
    (∃ x ∈ m.keys, x.status ≠ Status.invalid ∧
      ∃ m2, m.get_next_key = Except.ok (x.key, m2)) ∧
    ((∃ y ∈ m.keys, y.status = Status.healthy) →
      ∃ y ∈ m.keys, y.status = Status.healthy ∧
        ∃ m2, m.get_next_key = Except.ok (y.key, m2)) := by
  have hpart2 : (∃ y ∈ m.keys, y.status = Status.healthy) →
      ∃ y ∈ m.keys, y.status = Status.healthy ∧
        ∃ m2, m.get_next_key = Except.ok (y.key, m2) := by
    rintro ⟨y, hy, hys⟩
    have hne : m.tierOf .healthy ≠ [] :=
      List.ne_nil_of_mem ((mem_tierOf m .healthy y).mpr ⟨hy, hys⟩)
    obtain ⟨r, hrmem, hr⟩ := get_next_key_of_healthy m hne
    obtain ⟨hrk, hrs⟩ := (mem_tierOf m .healthy r).mp hrmem
    exact ⟨r, hrk, hrs, m.advance, hr⟩
  refine ⟨?_, hpart2⟩
  by_cases hH : m.tierOf .healthy = []
  · obtain ⟨x, hx, hxs⟩ := husable
    have hxf : x.status = Status.faulty := by
      cases hst : x.status with
      | healthy =>
        exact absurd ((mem_tierOf m .healthy x).mpr ⟨hx, hst⟩)
          (by simp [hH])
      | faulty => rfl
      | invalid => exact absurd hst hxs
    have hne : m.tierOf .faulty ≠ [] :=
      List.ne_nil_of_mem ((mem_tierOf m .faulty x).mpr ⟨hx, hxf⟩)
    obtain ⟨r, hrmem, hr⟩ := get_next_key_of_faulty m hH hne
    obtain ⟨hrk, hrs⟩ := (mem_tierOf m .faulty r).mp hrmem
    exact ⟨r, hrk, by simp [hrs], m.advance, hr⟩
  · obtain ⟨r, hrmem, hr⟩ := get_next_key_of_healthy m hH
    obtain ⟨hrk, hrs⟩ := (mem_tierOf m .healthy r).mp hrmem
    exact ⟨r, hrk, by simp [hrs], m.advance, hr⟩

/-- Witness for C4 at a concrete pool with one healthy, one faulty and one
invalid key. -/
theorem C4_tier_preference_witness :
    (∃ x ∈ mgrMixed.keys, x.status ≠ Status.invalid ∧
      ∃ m2, mgrMixed.get_next_key = Except.ok (x.key, m2)) ∧
    ((∃ y ∈ mgrMixed.keys, y.status = Status.healthy) →
      ∃ y ∈ mgrMixed.keys, y.status = Status.healthy ∧
        ∃ m2, mgrMixed.get_next_key = Except.ok (y.key, m2)) :=
  C4_tier_preference mgrMixed (by decide)

/-- Helper: unfolding one step of the cyclic read. -/
theorem cycleTake_succ (n : Nat) (l : List Str) (i : Nat) :
    cycleTake (n + 1) l i =
      l.getD (i % l.length) [] :: cycleTake n l ((i + 1) % l.length) := by
  unfold cycleTake
  rw [List.range_succ_eq_map]
  simp only [List.map_cons, List.map_map, Function.comp, Nat.add_zero]
  congr 1
  apply List.map_congr_left
  intro j hj
  have harg : (i + (j + 1)) % l.length = ((i + 1) % l.length + j) % l.length := by
    conv_rhs => rw [Nat.mod_add_mod]
    congr 1
    omega
  simp only [Function.comp_apply, Nat.succ_eq_add_one, harg]

/-- Helper: when every key is healthy, get_next_key returns the pool entry at
the cursor position modulo the pool size and advances the cursor. -/
theorem get_next_key_all_healthy (m : KeyRotationManager)
    (hall : ∀ x ∈ m.keys, x.status = Status.healthy) (hne : m.keys ≠ []) :
    m.get_next_key = .ok ((m.keys.map LicenseKeyHealth.key).getD
      (m.current_index % m.keys.length) [], m.advance) := by
  have ht : m.tierOf .healthy = m.keys :=
    List.filter_eq_self.mpr fun a ha => by simp [hall a ha]
  have hlen : 0 < m.keys.length := List.length_pos.mpr hne
  have hidx : m.current_index % m.keys.length < m.keys.length := Nat.mod_lt _ hlen
  have hE : m.keys.isEmpty = false := by simpa [List.isEmpty_iff] using hne
  have hget : m.keys.get? (m.current_index % m.keys.length) =
      some (m.keys.get ⟨m.current_index % m.keys.length, hidx⟩) := by
    rw [List.get?_eq_getElem?, List.getElem?_eq_getElem hidx]
    rfl
  have hD : (m.keys.map LicenseKeyHealth.key).getD
      (m.current_index % m.keys.length) [] =
      (m.keys.get ⟨m.current_index % m.keys.length, hidx⟩).key := by
    rw [List.getD_eq_getElem _ _ (by simpa [List.length_map] using hidx)]
    simp [List.getElem_map, List.get_eq_getElem]
  simp only [KeyRotationManager.get_next_key, hE, Bool.false_eq_true, if_false,
    ht, hget, hD]

/-- Helper: with an all-healthy pool, n consecutive calls read the pool keys
cyclically starting at the cursor. -/
theorem runKeys_all_healthy (n : Nat) (m : KeyRotationManager)
    (hall : ∀ x ∈ m.keys, x.status = Status.healthy) (hne : m.keys ≠ []) :
    runKeys n m = cycleTake n (m.keys.map LicenseKeyHealth.key) m.current_index := by
  induction n generalizing m with
  | zero => simp [runKeys, cycleTake]
  | succ n ih =>
    have hstep := get_next_key_all_healthy m hall hne
    have ihm := ih m.advance hall hne
    rw [runKeys, hstep]
    simp only []
    rw [ihm]
    rw [cycleTake_succ]
    simp [KeyRotationManager.advance, List.length_map]

/-- Helper: reading a full cycle starting at i is the rotation of the list
by i. -/
theorem cycleTake_rotate (l : List Str) (i : Nat) :
    cycleTake l.length l i = l.rotate i := by
  rcases eq_or_ne l [] with rfl | hne
  · simp [cycleTake]
  · have hlen : 0 < l.length := List.length_pos.mpr hne
    apply List.ext_getElem
    · simp [cycleTake, List.length_rotate]
    · intro j h1 h2
      have hj : j < l.length := by simpa [cycleTake] using h1
      have hr : j < (l.rotate i).length := by simpa [List.length_rotate] using hj
      rw [List.getElem_rotate]
      unfold cycleTake
      rw [List.getElem_map, List.getElem_range]
      rw [List.getD_eq_getElem _ _ (Nat.mod_lt _ hlen)]
      congr 1
      rw [Nat.add_comm i j]

/-- Claim C5 as amended: when the first non-empty tier is the whole pool —
in particular for a pool of N healthy keys — N consecutive get_next_key calls
return each pool key exactly once, in the stable cyclic order given by
rotating the pool at the cursor.  (In general the selection index is reduced
modulo the tier size while the cursor is advanced modulo the full pool size,
so for a proper sub-tier members can repeat; see the counterexample.) -/
theorem C5_round_robin_full_pool (m : KeyRotationManager)
    (hall : ∀ x ∈ m.keys, x.status = Status.healthy) :
    runKeys m.keys.length m =
      (m.keys.map LicenseKeyHealth.key).rotate m.current_index ∧
    List.Perm (runKeys m.keys.length m) (m.keys.map LicenseKeyHealth.key) := by
  rcases eq_or_ne m.keys [] with he | hne
  · constructor
    · simp [he, runKeys, List.rotate_nil]
    · simp [he, runKeys]
  · have h1 : runKeys m.keys.length m =
        cycleTake m.keys.length (m.keys.map LicenseKeyHealth.key) m.current_index :=
      runKeys_all_healthy _ m hall hne
    have hl : (m.keys.map LicenseKeyHealth.key).length = m.keys.length :=
      List.length_map _ _
    have h2 : runKeys m.keys.length m =
        (m.keys.map LicenseKeyHealth.key).rotate m.current_index := by
      rw [h1, ← hl, cycleTake_rotate]
    exact ⟨h2, h2 ▸ List.rotate_perm _ _⟩

/-- Witness for C5 at a concrete pool of three healthy keys with the cursor
at 1: the three calls return the rotation b, c, a. -/
theorem C5_round_robin_full_pool_witness :
    runKeys
      (KeyRotationManager.mk
        [LicenseKeyHealth.fresh ['a'], LicenseKeyHealth.fresh ['b'],
          LicenseKeyHealth.fresh ['c']] 1).keys.length
      (KeyRotationManager.mk
        [LicenseKeyHealth.fresh ['a'], LicenseKeyHealth.fresh ['b'],
          LicenseKeyHealth.fresh ['c']] 1) =
      ((KeyRotationManager.mk
        [LicenseKeyHealth.fresh ['a'], LicenseKeyHealth.fresh ['b'],
          LicenseKeyHealth.fresh ['c']] 1).keys.map
            LicenseKeyHealth.key).rotate 1 ∧
    List.Perm
      (runKeys
        (KeyRotationManager.mk
          [LicenseKeyHealth.fresh ['a'], LicenseKeyHealth.fresh ['b'],
            LicenseKeyHealth.fresh ['c']] 1).keys.length
        (KeyRotationManager.mk
          [LicenseKeyHealth.fresh ['a'], LicenseKeyHealth.fresh ['b'],
            LicenseKeyHealth.fresh ['c']] 1))
      ((KeyRotationManager.mk
        [LicenseKeyHealth.fresh ['a'], LicenseKeyHealth.fresh ['b'],
          LicenseKeyHealth.fresh ['c']] 1).keys.map LicenseKeyHealth.key) :=
  C5_round_robin_full_pool
    (KeyRotationManager.mk
      [LicenseKeyHealth.fresh ['a'], LicenseKeyHealth.fresh ['b'],
        LicenseKeyHealth.fresh ['c']] 1) (by decide)

/-- Counterexample refuting claim C5 as stated: a reachable pool state with a
two-member healthy tier (keys a and b) inside a three-key pool and the cursor
at 2; the next two consecutive calls both return a, so the two tier members
are not each returned once. -/
theorem C5_counterexample :
    (mgrTwoHealthy.tierOf Status.healthy).length = 2 ∧
    LicenseKeyHealth.fresh ['b'] ∈ mgrTwoHealthy.tierOf Status.healthy ∧
    runKeys 2 mgrTwoHealthy = [['a'], ['a']] ∧
    (['b'] : Str) ∉ runKeys 2 mgrTwoHealthy ∧
    mgrTwoHealthy =
      nextState (applyFailN (KeyRotationManager.init [['a'], ['b'], ['c']]) ['c'] 5) := by
  decide

/-- Counterexample refuting claim C6 as stated: constructing the rotation
manager from a pool with no non-empty trimmed credential succeeds (it returns
a manager with zero keys rather than failing), and the configuration error
only surfaces on the first get_next_key call. -/
theorem C6_counterexample :
    KeyRotationManager.initE [[' '], []] =
      Except.ok { keys := [], current_index := 0 } ∧
    KeyRotationManager.get_next_key { keys := [], current_index := 0 } =
      Except.error "No license keys configured" := by
  exact ⟨rfl, rfl⟩

/-- Claim C6 as amended: the manager constructor accepts an empty credential
pool without error, producing a zero-key manager whose first get_next_key
call fails with the no-keys-configured error; the construction-time
configuration failure for an empty pool lives in ByapiConfig, whose
license-key validation rejects a credential string with no valid keys. -/
theorem C6_empty_pool_behavior (l : List Str) (s : Str)
    (hl : cleanKeys l = []) (hs : parseLicenseKeys s = []) :
    KeyRotationManager.initE l = Except.ok (KeyRotationManager.init l) ∧
    (KeyRotationManager.init l).keys = [] ∧
    (KeyRotationManager.init l).get_next_key =
      Except.error "No license keys configured" ∧
    ∃ e, byapiConfigLicenseKeys s = Except.error e := by
  have hkeys : (KeyRotationManager.init l).keys = [] := by
    simp [KeyRotationManager.init, hl, dedupFirst]
  refine ⟨rfl, hkeys, ?_, ?_⟩
  · rw [KeyRotationManager.get_next_key, if_pos (by simp [hkeys])]
  · by_cases h0 : s = []
    · subst h0
      exact ⟨_, rfl⟩
    · refine ⟨"No valid license keys found in BYAPI_LICENCE", ?_⟩
      simp [byapiConfigLicenseKeys, h0, hs]

/-- Witness for C6 at concrete inputs: a pool of one blank and one empty
credential, and a licence string of one comma between blanks. -/
theorem C6_empty_pool_behavior_witness :
    KeyRotationManager.initE [[' '], []] =
      Except.ok (KeyRotationManager.init [[' '], []]) ∧
    (KeyRotationManager.init [[' '], []]).keys = [] ∧
    (KeyRotationManager.init [[' '], []]).get_next_key =
      Except.error "No license keys configured" ∧
    ∃ e, byapiConfigLicenseKeys [' ', ',', ' '] = Except.error e :=
  C6_empty_pool_behavior [[' '], []] [' ', ',', ' '] (by decide) (by decide)

/-- Claim C8: the pre-jitter delay equals the spec formula min of the cap and
base times 2 to the attempt minus one; it never exceeds the cap, and equals
the uncapped exponential whenever that is within the cap; and for any jitter
draw of magnitude at most 0.2 the slept time deviates from the pre-jitter
delay by at most 20 percent of it. -/
theorem C8_backoff_bounds (base maxd : ℚ) (n : Nat) (j : ℚ)
    (hn : 1 ≤ n) (hb : 0 ≤ base) (hm : 0 ≤ maxd) (hj : |j| ≤ 1 / 5) :
    wait_delay base maxd n = backoffSpec base maxd n ∧
    wait_delay base maxd n ≤ maxd ∧
    (base * 2 ^ (n - 1) ≤ maxd → wait_delay base maxd n = base * 2 ^ (n - 1)) ∧
    |wait_actual base maxd n j - wait_delay base maxd n| ≤
      1 / 5 * wait_delay base maxd n := by
  have hd : 0 ≤ wait_delay base maxd n := le_min (by positivity) hm
  refine ⟨min_comm _ _, min_le_right _ _, fun h => min_eq_left h, ?_⟩
  have hdiff : wait_actual base maxd n j - wait_delay base maxd n =
      wait_delay base maxd n * j := by
    unfold wait_actual
    ring
  rw [hdiff, abs_mul, abs_of_nonneg hd, mul_comm]
  exact mul_le_mul_of_nonneg_right hj hd

/-- Witness for C8 at the default configuration, attempt 3, jitter draw one
tenth. -/
theorem C8_backoff_bounds_witness :
    wait_delay (1 / 10) 30 3 = backoffSpec (1 / 10) 30 3 ∧
    wait_delay (1 / 10) 30 3 ≤ 30 ∧
    ((1 : ℚ) / 10 * 2 ^ (3 - 1) ≤ 30 →
      wait_delay (1 / 10) 30 3 = 1 / 10 * 2 ^ (3 - 1)) ∧
    |wait_actual (1 / 10) 30 3 (1 / 10) - wait_delay (1 / 10) 30 3| ≤
      1 / 5 * wait_delay (1 / 10) 30 3 :=
  C8_backoff_bounds (1 / 10) 30 3 (1 / 10) (by norm_num) (by norm_num)
    (by norm_num)
    (by rw [abs_of_nonneg (by norm_num : (0 : ℚ) ≤ 1 / 10)]; norm_num)

/-- Claim C9: in a masked health snapshot every returned key is the masked
form of some pool key; masking a key longer than 8 characters yields exactly
its first 8 characters followed by three dots (total length 11), a key of at
most 8 characters yields the fixed three-asterisk placeholder, and the masked
form depends only on the first 8 characters of the key (together with whether
the key is longer than 8), so it carries no credential material beyond the
first 8 characters. -/
theorem C9_masking (m : KeyRotationManager) (x : LicenseKeyHealth) (k1 k2 : Str)
    (hpre : k1.take 8 = k2.take 8) (hlen : 8 < k1.length ↔ 8 < k2.length) :
    (∀ g ∈ m.get_health_status true, ∃ h0 ∈ m.keys, g.key = maskStr h0.key) ∧
    (8 < x.key.length →
      x.mask_key = x.key.take 8 ++ ['.', '.', '.'] ∧ x.mask_key.length = 11) ∧
    (x.key.length ≤ 8 → x.mask_key = ['*', '*', '*']) ∧
    maskStr k1 = maskStr k2 := by
  refine ⟨?_, ?_, ?_, ?_⟩
  · intro g hg
    simp only [KeyRotationManager.get_health_status, if_pos, List.mem_map] at hg
    obtain ⟨h0, hh0, hgeq⟩ := hg
    refine ⟨h0, hh0, ?_⟩
    rw [← hgeq]
    rfl
  · intro hx
    constructor
    · simp [LicenseKeyHealth.mask_key, maskStr, hx]
    · unfold LicenseKeyHealth.mask_key maskStr
      rw [if_pos hx, List.length_append, List.length_take]
      have h3 : (['.', '.', '.'] : Str).length = 3 := rfl
      rw [h3]
      omega
  · intro hx
    simp only [LicenseKeyHealth.mask_key, maskStr]
    rw [if_neg (by omega)]
  · unfold maskStr
    by_cases h1 : 8 < k1.length
    · rw [if_pos h1, if_pos (hlen.mp h1), hpre]
    · rw [if_neg h1, if_neg (fun c => h1 (hlen.mpr c))]

/-- Witness for C9 at a concrete pool holding one nine-character key, and two
twelve-character keys agreeing on their first 8 characters. -/
theorem C9_masking_witness :
    (∀ g ∈ (KeyRotationManager.mk
        [LicenseKeyHealth.fresh ['s', 'e', 'c', 'r', 'e', 't', 'k', 'y', 'Z']] 0).get_health_status
        true,
      ∃ h0 ∈ (KeyRotationManager.mk
        [LicenseKeyHealth.fresh ['s', 'e', 'c', 'r', 'e', 't', 'k', 'y', 'Z']] 0).keys,
        g.key = maskStr h0.key) ∧
    (8 < (LicenseKeyHealth.fresh
        ['s', 'e', 'c', 'r', 'e', 't', 'k', 'y', 'Z']).key.length →
      (LicenseKeyHealth.fresh
        ['s', 'e', 'c', 'r', 'e', 't', 'k', 'y', 'Z']).mask_key =
        (LicenseKeyHealth.fresh
          ['s', 'e', 'c', 'r', 'e', 't', 'k', 'y', 'Z']).key.take 8 ++
          ['.', '.', '.'] ∧
      (LicenseKeyHealth.fresh
        ['s', 'e', 'c', 'r', 'e', 't', 'k', 'y', 'Z']).mask_key.length = 11) ∧
    ((LicenseKeyHealth.fresh
        ['s', 'e', 'c', 'r', 'e', 't', 'k', 'y', 'Z']).key.length ≤ 8 →
      (LicenseKeyHealth.fresh
        ['s', 'e', 'c', 'r', 'e', 't', 'k', 'y', 'Z']).mask_key =
        ['*', '*', '*']) ∧
    maskStr ['a', 'b', 'c', 'd', 'e', 'f', 'g', 'h', '1', '2', '3', '4'] =
      maskStr ['a', 'b', 'c', 'd', 'e', 'f', 'g', 'h', 'x', 'y', 'z', 'w'] :=
  C9_masking
    (KeyRotationManager.mk
      [LicenseKeyHealth.fresh ['s', 'e', 'c', 'r', 'e', 't', 'k', 'y', 'Z']] 0)
    (LicenseKeyHealth.fresh ['s', 'e', 'c', 'r', 'e', 't', 'k', 'y', 'Z'])
    ['a', 'b', 'c', 'd', 'e', 'f', 'g', 'h', '1', '2', '3', '4']
    ['a', 'b', 'c', 'd', 'e', 'f', 'g', 'h', 'x', 'y', 'z', 'w']
    (by decide) (by decide)

/-- Claim C1 (code bug): in the source, the branch for statuses of at least
400 precedes the branch for statuses of at least 500, so every 5xx response
is classified as a terminal client error: the call marks exactly one key
failure and raises DataError without any retry, and the server-retry branch
is dead.  A run of persistent 503 responses therefore ends after one attempt
with one recorded failure, while persistent network exceptions are retried
with one recorded failure per attempt until the budget of 5 is exhausted. -/
theorem C1_server_error_dead_branch :
    classifyStatus 500 = HttpClass.clientError ∧
    classifyStatus 503 = HttpClass.clientError ∧
    classifyStatus 599 = HttpClass.clientError ∧
    (makeRequest 5 mgrC1 cKey (fun _ => HttpOutcome.http 503 true)).1 =
      ReqOutcome.dataError ∧
    totalFailuresOf
      (makeRequest 5 mgrC1 cKey (fun _ => HttpOutcome.http 503 true)).2 cKey =
      some 1 ∧
    (makeRequest 5 mgrC1 cKey (fun _ => HttpOutcome.netError "timed out")).1 =
      ReqOutcome.networkError ∧
    totalFailuresOf
      (makeRequest 5 mgrC1 cKey (fun _ => HttpOutcome.netError "timed out")).2
      cKey = some 5 := by
  decide
